import Mathlib

/-!
Verification of the podcastfy async job-lifecycle core against its
natural-language specification.

The embedding models the durable job table (SQLAlchemy model `Podcast` in
`podcastfy/models.py`) as a list of records in insertion order, and the
service-layer operations of `podcastfy/services/podcast_service.py`,
`podcastfy/services/deduplication.py`, `podcastfy/api/async_app.py` and
`podcastfy/worker.py` as pure functions over that table.  Timestamps
(`datetime.utcnow()`) and freshly generated ids (`uuid.uuid4()`) are passed
in as explicit parameters; external collaborators (podcast generation and
R2 upload) are passed in as an `Except` outcome.
-/

namespace Podcastfy

/-- A row of the `podcasts` table (`models.py`, class `Podcast`).
`id` models the UUID primary key as a `Nat`; timestamps are `Nat` instants.
The `url` column carries `unique=True` in the source
(`models.py` line 27); that constraint is enforced in `create_podcast_job`
below, where the SQLAlchemy `commit` would raise `IntegrityError`. -/
structure Podcast where
  id : Nat
  url : String
  title : Option String
  audio_filename : Option String
  audio_url : Option String
  status : String
  created_at : Nat
  started_at : Option Nat
  completed_at : Option Nat
  duration : Option Nat
  error_message : Option String
  retry_count : Nat
deriving Repr, DecidableEq

/-- A keyword argument passed to `update_podcast_status` (its `**kwargs`).
One constructor per column attribute of the `Podcast` model; `unknownKey s`
models a keyword `s` that names no attribute of the record, which the
source skips via its `hasattr` check. -/
inductive Kwarg where
  | kwId (v : Nat)
  | kwUrl (v : String)
  | kwTitle (v : Option String)
  | kwAudioFilename (v : Option String)
  | kwAudioUrl (v : Option String)
  | kwStatus (v : String)
  | kwCreatedAt (v : Nat)
  | kwStartedAt (v : Option Nat)
  | kwCompletedAt (v : Option Nat)
  | kwDuration (v : Option Nat)
  | kwErrorMessage (v : Option String)
  | kwRetryCount (v : Nat)
  | unknownKey (name : String)
deriving Repr, DecidableEq

/-- The Python keyword string of a `Kwarg`. -/
def Kwarg.name : Kwarg → String
  | .kwId _ => "id"
  | .kwUrl _ => "url"
  | .kwTitle _ => "title"
  | .kwAudioFilename _ => "audio_filename"
  | .kwAudioUrl _ => "audio_url"
  | .kwStatus _ => "status"
  | .kwCreatedAt _ => "created_at"
  | .kwStartedAt _ => "started_at"
  | .kwCompletedAt _ => "completed_at"
  | .kwDuration _ => "duration"
  | .kwErrorMessage _ => "error_message"
  | .kwRetryCount _ => "retry_count"
  | .unknownKey s => s

/-- `if hasattr(podcast, key): setattr(podcast, key, value)` for one
keyword (`podcast_service.py` lines 104-106): a keyword naming an
attribute assigns that attribute, any other keyword leaves the record
unchanged. -/
def applyKwarg (p : Podcast) : Kwarg → Podcast
  | .kwId v => { p with id := v }
  | .kwUrl v => { p with url := v }
  | .kwTitle v => { p with title := v }
  | .kwAudioFilename v => { p with audio_filename := v }
  | .kwAudioUrl v => { p with audio_url := v }
  | .kwStatus v => { p with status := v }
  | .kwCreatedAt v => { p with created_at := v }
  | .kwStartedAt v => { p with started_at := v }
  | .kwCompletedAt v => { p with completed_at := v }
  | .kwDuration v => { p with duration := v }
  | .kwErrorMessage v => { p with error_message := v }
  | .kwRetryCount v => { p with retry_count := v }
  | .unknownKey _ => p

/-- The `for key, value in kwargs.items()` loop of `update_podcast_status`,
applied in keyword order. -/
def applyKwargs (p : Podcast) (kws : List Kwarg) : Podcast :=
  kws.foldl applyKwarg p

/-- The durable `podcasts` table, rows in insertion order. -/
abbrev Store := List Podcast

/-- `db.query(Podcast).filter(Podcast.id == podcast_id).first()`
(`podcast_service.py` line 44). -/
def get_podcast_by_id (db : Store) (podcast_id : Nat) : Option Podcast :=
  db.find? (fun p => p.id == podcast_id)

/-- `db.query(Podcast).filter(Podcast.url == url).first()`
(`podcast_service.py` line 58): the first row in table order whose url
matches; the query carries no `order_by`. -/
def get_podcast_by_url (db : Store) (url : String) : Option Podcast :=
  db.find? (fun p => p.url == url)

/-- Newest-first comparison used by `order_by(Podcast.created_at.desc())`. -/
def newerEq (p q : Podcast) : Prop := q.created_at ≤ p.created_at

instance : DecidableRel newerEq :=
  fun p q => inferInstanceAs (Decidable (q.created_at ≤ p.created_at))

instance : IsTotal Podcast newerEq :=
  ⟨fun a b => Nat.le_total b.created_at a.created_at⟩

instance : IsTrans Podcast newerEq :=
  ⟨fun _ _ _ h1 h2 => Nat.le_trans h2 h1⟩

/-- Oldest-first comparison used by `order_by(Podcast.created_at)`. -/
def olderEq (p q : Podcast) : Prop := p.created_at ≤ q.created_at

instance : DecidableRel olderEq :=
  fun p q => inferInstanceAs (Decidable (p.created_at ≤ q.created_at))

instance : IsTotal Podcast olderEq :=
  ⟨fun a b => Nat.le_total a.created_at b.created_at⟩

instance : IsTrans Podcast olderEq :=
  ⟨fun _ _ _ h1 h2 => Nat.le_trans h1 h2⟩

/-- `db.query(Podcast).order_by(Podcast.created_at.desc()).limit(limit).all()`
(`podcast_service.py` line 72). -/
def get_all_podcasts (db : Store) (limit : Nat) : List Podcast :=
  (List.insertionSort newerEq db).take limit

/-- `db.query(Podcast).filter_by(status='queued').order_by(Podcast.created_at).first()`
(`podcast_service.py` line 85).  A plain `SELECT`: it reads the oldest
queued row and writes nothing. -/
def get_next_queued_job (db : Store) : Option Podcast :=
  (List.insertionSort olderEq (db.filter (fun p => p.status == "queued"))).head?

/-- Error text of the `IntegrityError` raised by the database when the
`unique=True` constraint on `podcasts.url` is violated on commit. -/
def conflict_message : String :=
  "IntegrityError: duplicate key value violates unique constraint on podcasts.url"

/-- `create_podcast_job` (`podcast_service.py` lines 15-30):
`Podcast(url=url, status='queued')` with column defaults
(`created_at = now`, `retry_count = 0`, every other column unset), then
`db.add`/`db.commit`.  Because the `url` column is declared `unique=True`
(`models.py` line 27), the commit raises `IntegrityError` whenever any
row — of any status — already holds this url; the session rolls back and
the table is unchanged.  `newId` and `now` stand for `uuid.uuid4()` and
`datetime.utcnow()`. -/
def create_podcast_job (db : Store) (url : String) (newId : Nat) (now : Nat) :
    Except String (Podcast × Store) :=
  if db.any (fun p => p.url == url) then
    .error conflict_message
  else
    let p : Podcast :=
      { id := newId, url := url, title := none, audio_filename := none,
        audio_url := none, status := "queued", created_at := now,
        started_at := none, completed_at := none, duration := none,
        error_message := none, retry_count := 0 }
    .ok (p, db ++ [p])

/-- Commit of an in-place mutation of the row fetched by
`get_podcast_by_id`: the first row with this id is replaced, every other
row is untouched. -/
def replaceFirstById (db : Store) (podcast_id : Nat) (q : Podcast) : Store :=
  match db with
  | [] => []
  | p :: rest =>
    if p.id == podcast_id then q :: rest
    else p :: replaceFirstById rest podcast_id q

/-- `update_podcast_status` (`podcast_service.py` lines 88-109): fetch by
id; if absent return `None` leaving the table as it was; otherwise set
`status`, apply each keyword that names an existing attribute, commit, and
return the updated row. -/
def update_podcast_status (db : Store) (podcast_id : Nat) (status : String)
    (kwargs : List Kwarg) : Option Podcast × Store :=
  match get_podcast_by_id db podcast_id with
  | none => (none, db)
  | some p =>
    let q := applyKwargs { p with status := status } kwargs
    (some q, replaceFirstById db podcast_id q)

/-- Payload of the API responses built by the deduplication gate and the
submit endpoint: `job_id`, `status`, and an optional `audio_url`. -/
structure ApiResponse where
  job_id : Nat
  status : String
  audio_url : Option String
deriving Repr, DecidableEq

/-- The artifact access reference `f"/api/audio/{id}"`. -/
def audio_ref (podcast_id : Nat) : String :=
  "/api/audio/" ++ toString podcast_id

/-- The dictionary returned by `check_existing_podcast`: the `exists` flag,
the attached record if any, and the ready-made API response if any. -/
structure CheckResult where
  existsFlag : Bool
  podcast : Option Podcast
  response : Option ApiResponse
deriving Repr, DecidableEq

/-- `check_existing_podcast` (`deduplication.py` lines 14-58): a read-only
decision over `get_podcast_by_url`.  No row: allow creation.  Completed
row: reuse with artifact reference.  Queued or processing row: reuse with
current status and no artifact reference.  Any other status (the `else`
branch, i.e. failed): allow creation, record attached. -/
def check_existing_podcast (db : Store) (url : String) : CheckResult :=
  match get_podcast_by_url db url with
  | none => ⟨false, none, none⟩
  | some existing =>
    if existing.status = "completed" then
      ⟨true, some existing, some ⟨existing.id, "completed", some (audio_ref existing.id)⟩⟩
    else if existing.status = "queued" ∨ existing.status = "processing" then
      ⟨true, some existing, some ⟨existing.id, existing.status, none⟩⟩
    else
      ⟨false, some existing, none⟩

/-- Outcome of a FastAPI handler: a response body, or an
`HTTPException(status_code, detail)`. -/
inductive ApiResult (α : Type) where
  | ok : α → ApiResult α
  | httpError : Nat → String → ApiResult α
deriving Repr, DecidableEq

/-- `generate_podcast_async` (`async_app.py` lines 105-134): run the
deduplication check; on `exists` return its response; otherwise create the
job and answer `{job_id, status}`.  The whole body sits in a
`try/except Exception` that converts any raised error — including the
`IntegrityError` from the unique-url constraint — into
`HTTPException(500, str(e))`, with the session rolled back. -/
def generate_podcast_async (db : Store) (url : String) (newId : Nat) (now : Nat) :
    ApiResult ApiResponse × Store :=
  let result := check_existing_podcast db url
  if result.existsFlag then
    match result.response with
    | some r => (.ok r, db)
    | none => (.httpError 500 "KeyError: response", db)
  else
    match create_podcast_job db url newId now with
    | .ok (p, db2) => (.ok ⟨p.id, p.status, none⟩, db2)
    | .error e => (.httpError 500 e, db)

/-- Body of the `/api/status/{job_id}` response (`async_app.py`). -/
structure StatusResponse where
  status : String
  audio_url : Option String
  error_message : Option String
  created_at : Option Nat
  started_at : Option Nat
  completed_at : Option Nat
deriving Repr, DecidableEq

/-- `get_job_status` (`async_app.py` lines 136-155): 404 on unknown id;
otherwise project the row, attaching the audio reference only when the
status is `completed`. -/
def get_job_status (db : Store) (job_id : Nat) : ApiResult StatusResponse :=
  match get_podcast_by_id db job_id with
  | none => .httpError 404 "Job not found"
  | some p =>
    let base : StatusResponse :=
      { status := p.status, audio_url := none, error_message := p.error_message,
        created_at := some p.created_at, started_at := p.started_at,
        completed_at := p.completed_at }
    if p.status = "completed" then .ok { base with audio_url := some (audio_ref job_id) }
    else .ok base

/-- `get_podcast_library` (`async_app.py` lines 157-167): a fresh
`get_all_podcasts(db, limit=100)` on every call, read-only. -/
def get_podcast_library (db : Store) : List Podcast :=
  get_all_podcasts db 100

/-- `str(e)[:500]` (`worker.py` line 179): the error text truncated to at
most 500 characters. -/
def trunc500 (s : String) : String :=
  ⟨s.data.take 500⟩

/-- Data collected by a fully successful attempt: the basename of the
generated audio file, the public R2 url returned by the upload, and the
best-effort duration (left `none` when the computation fails). -/
structure GenOk where
  audio_filename : String
  audio_url : String
  duration : Option Nat
deriving Repr, DecidableEq

/-- `process_podcast_job` (`worker.py` lines 56-181).  `titleOf` stands for
the pure string derivation `extract_title_from_url`; `gen` is the combined
outcome of the hard steps (generation, artifact check, R2 upload), an
error carrying the raised exception's text.  The job is first marked
`processing` with `started_at = now1` through `update_podcast_status`; on
success a second update records `completed` with the collected fields; on
any hard failure the worker re-reads the row, increments its retry count,
and records `failed` with `completed_at = now2` and the truncated error
text.  A missing id logs and returns with the table unchanged. -/
def process_podcast_job (titleOf : String → String) (db : Store)
    (podcast_id : Nat) (now1 now2 : Nat) (gen : Except String GenOk) : Store :=
  match get_podcast_by_id db podcast_id with
  | none => db
  | some podcast =>
    let db1 := (update_podcast_status db podcast_id "processing"
      [.kwStartedAt (some now1)]).2
    match gen with
    | .ok g =>
      (update_podcast_status db1 podcast_id "completed"
        [.kwCompletedAt (some now2), .kwAudioFilename (some g.audio_filename),
         .kwAudioUrl (some g.audio_url), .kwTitle (some (titleOf podcast.url)),
         .kwDuration g.duration]).2
    | .error e =>
      let retry_count :=
        match get_podcast_by_id db1 podcast_id with
        | some q => q.retry_count + 1
        | none => 1
      (update_podcast_status db1 podcast_id "failed"
        [.kwCompletedAt (some now2), .kwErrorMessage (some (trunc500 e)),
         .kwRetryCount retry_count]).2

/-! ### Concrete tables used by counterexamples, failing inputs and witnesses -/

/-- A `completed` job record, id 1. -/
def podCompletedA : Podcast :=
  { id := 1, url := "https://example.org/a", title := some "A",
    audio_filename := some "podcast_a.mp3", audio_url := some "https://r2/a.mp3",
    status := "completed", created_at := 10, started_at := some 11,
    completed_at := some 12, duration := some 300, error_message := none,
    retry_count := 0 }

/-- A table holding one `completed` job, id 1. -/
def dbCompleted1 : Store := [podCompletedA]

/-- A `failed` job record for `https://example.org/b`, id 1. -/
def podFailedB : Podcast :=
  { id := 1, url := "https://example.org/b", title := none,
    audio_filename := none, audio_url := none, status := "failed",
    created_at := 10, started_at := some 11, completed_at := some 12,
    duration := none, error_message := some "boom", retry_count := 1 }

/-- A table holding one `failed` job for `https://example.org/b`. -/
def dbFailedB : Store := [podFailedB]

/-- A `failed` job record for `https://example.org/c`, id 7. -/
def podFailedC : Podcast :=
  { id := 7, url := "https://example.org/c", title := none,
    audio_filename := none, audio_url := none, status := "failed",
    created_at := 20, started_at := some 21, completed_at := some 22,
    duration := none, error_message := some "oops", retry_count := 2 }

/-- A table holding one `failed` job for `https://example.org/c`. -/
def dbFailedC : Store := [podFailedC]

/-- A `queued` job record, id 1, created at 10. -/
def podQueuedD : Podcast :=
  { id := 1, url := "https://example.org/d", title := none,
    audio_filename := none, audio_url := none, status := "queued",
    created_at := 10, started_at := none, completed_at := none,
    duration := none, error_message := none, retry_count := 0 }

/-- A table holding one `queued` job, id 1, created at 10. -/
def dbQueued1 : Store := [podQueuedD]

/-- First `failed` record for url `u`: id 1, created at 10, inserted first. -/
def podFailedU1 : Podcast :=
  { id := 1, url := "u", title := none, audio_filename := none,
    audio_url := none, status := "failed", created_at := 10,
    started_at := some 11, completed_at := some 12, duration := none,
    error_message := some "first failure", retry_count := 1 }

/-- Second `failed` record for url `u`: id 2, created at 20, inserted second. -/
def podFailedU2 : Podcast :=
  { id := 2, url := "u", title := none, audio_filename := none,
    audio_url := none, status := "failed", created_at := 20,
    started_at := some 21, completed_at := some 22, duration := none,
    error_message := some "second failure", retry_count := 1 }

/-- A table holding two records for the same url `u`, in insertion order. -/
def dbTwoFailedSameUrl : Store := [podFailedU1, podFailedU2]

/-- A `queued` job record, id 3, created at 30, used by witnesses. -/
def wpod : Podcast :=
  { id := 3, url := "https://example.org/w", title := none,
    audio_filename := none, audio_url := none, status := "queued",
    created_at := 30, started_at := none, completed_at := none,
    duration := none, error_message := none, retry_count := 0 }

/-- A table with the single queued job `wpod`, used by witnesses. -/
def dbWitness : Store := [wpod]

/-! ### Helper lemmas -/

theorem applyKwargs_cons (p : Podcast) (kw : Kwarg) (rest : List Kwarg) :
    applyKwargs p (kw :: rest) = applyKwargs (applyKwarg p kw) rest := rfl

theorem applyKwarg_frame (p : Podcast) (kw : Kwarg) :
    (kw.name ≠ "id" → (applyKwarg p kw).id = p.id) ∧
    (kw.name ≠ "url" → (applyKwarg p kw).url = p.url) ∧
    (kw.name ≠ "title" → (applyKwarg p kw).title = p.title) ∧
    (kw.name ≠ "audio_filename" → (applyKwarg p kw).audio_filename = p.audio_filename) ∧
    (kw.name ≠ "audio_url" → (applyKwarg p kw).audio_url = p.audio_url) ∧
    (kw.name ≠ "status" → (applyKwarg p kw).status = p.status) ∧
    (kw.name ≠ "created_at" → (applyKwarg p kw).created_at = p.created_at) ∧
    (kw.name ≠ "started_at" → (applyKwarg p kw).started_at = p.started_at) ∧
    (kw.name ≠ "completed_at" → (applyKwarg p kw).completed_at = p.completed_at) ∧
    (kw.name ≠ "duration" → (applyKwarg p kw).duration = p.duration) ∧
    (kw.name ≠ "error_message" → (applyKwarg p kw).error_message = p.error_message) ∧
    (kw.name ≠ "retry_count" → (applyKwarg p kw).retry_count = p.retry_count) := by
  cases kw <;>
    refine ⟨?_, ?_, ?_, ?_, ?_, ?_, ?_, ?_, ?_, ?_, ?_, ?_⟩ <;>
    intro h <;> first | rfl | exact absurd rfl h

theorem applyKwargs_frame (kws : List Kwarg) (p : Podcast) :
    ("id" ∉ kws.map Kwarg.name → (applyKwargs p kws).id = p.id) ∧
    ("url" ∉ kws.map Kwarg.name → (applyKwargs p kws).url = p.url) ∧
    ("title" ∉ kws.map Kwarg.name → (applyKwargs p kws).title = p.title) ∧
    ("audio_filename" ∉ kws.map Kwarg.name →
      (applyKwargs p kws).audio_filename = p.audio_filename) ∧
    ("audio_url" ∉ kws.map Kwarg.name → (applyKwargs p kws).audio_url = p.audio_url) ∧
    ("status" ∉ kws.map Kwarg.name → (applyKwargs p kws).status = p.status) ∧
    ("created_at" ∉ kws.map Kwarg.name → (applyKwargs p kws).created_at = p.created_at) ∧
    ("started_at" ∉ kws.map Kwarg.name → (applyKwargs p kws).started_at = p.started_at) ∧
    ("completed_at" ∉ kws.map Kwarg.name →
      (applyKwargs p kws).completed_at = p.completed_at) ∧
    ("duration" ∉ kws.map Kwarg.name → (applyKwargs p kws).duration = p.duration) ∧
    ("error_message" ∉ kws.map Kwarg.name →
      (applyKwargs p kws).error_message = p.error_message) ∧
    ("retry_count" ∉ kws.map Kwarg.name →
      (applyKwargs p kws).retry_count = p.retry_count) := by
  induction kws generalizing p with
  | nil =>
    exact ⟨fun _ => rfl, fun _ => rfl, fun _ => rfl, fun _ => rfl, fun _ => rfl,
           fun _ => rfl, fun _ => rfl, fun _ => rfl, fun _ => rfl, fun _ => rfl,
           fun _ => rfl, fun _ => rfl⟩
  | cons kw rest ih =>
    obtain ⟨k1, k2, k3, k4, k5, k6, k7, k8, k9, k10, k11, k12⟩ := applyKwarg_frame p kw
    obtain ⟨r1, r2, r3, r4, r5, r6, r7, r8, r9, r10, r11, r12⟩ := ih (applyKwarg p kw)
    simp only [List.map_cons, List.mem_cons, not_or]
    exact ⟨fun h => (r1 h.2).trans (k1 fun e => h.1 e.symm),
           fun h => (r2 h.2).trans (k2 fun e => h.1 e.symm),
           fun h => (r3 h.2).trans (k3 fun e => h.1 e.symm),
           fun h => (r4 h.2).trans (k4 fun e => h.1 e.symm),
           fun h => (r5 h.2).trans (k5 fun e => h.1 e.symm),
           fun h => (r6 h.2).trans (k6 fun e => h.1 e.symm),
           fun h => (r7 h.2).trans (k7 fun e => h.1 e.symm),
           fun h => (r8 h.2).trans (k8 fun e => h.1 e.symm),
           fun h => (r9 h.2).trans (k9 fun e => h.1 e.symm),
           fun h => (r10 h.2).trans (k10 fun e => h.1 e.symm),
           fun h => (r11 h.2).trans (k11 fun e => h.1 e.symm),
           fun h => (r12 h.2).trans (k12 fun e => h.1 e.symm)⟩

theorem applyKwargs_skip_unknown (p : Podcast) (s : String)
    (kws1 kws2 : List Kwarg) :
    applyKwargs p (kws1 ++ Kwarg.unknownKey s :: kws2) =
      applyKwargs p (kws1 ++ kws2) := by
  induction kws1 generalizing p with
  | nil => rfl
  | cons kw rest ih => exact ih (applyKwarg p kw)

theorem id_of_get_podcast_by_id (db : Store) (pid : Nat) (p : Podcast)
    (h : get_podcast_by_id db pid = some p) : p.id = pid := by
  have := List.find?_some h
  simpa using this

theorem mem_of_get_podcast_by_id (db : Store) (pid : Nat) (p : Podcast)
    (h : get_podcast_by_id db pid = some p) : p ∈ db :=
  List.mem_of_find?_eq_some h

theorem url_of_get_podcast_by_url (db : Store) (u : String) (p : Podcast)
    (h : get_podcast_by_url db u = some p) : p.url = u := by
  have := List.find?_some h
  simpa using this

theorem mem_of_get_podcast_by_url (db : Store) (u : String) (p : Podcast)
    (h : get_podcast_by_url db u = some p) : p ∈ db :=
  List.mem_of_find?_eq_some h

theorem get_podcast_by_id_replaceFirstById (db : Store) (pid : Nat)
    (q : Podcast) (hq : q.id = pid) (p : Podcast)
    (h : get_podcast_by_id db pid = some p) :
    get_podcast_by_id (replaceFirstById db pid q) pid = some q := by
  induction db with
  | nil => simp [get_podcast_by_id] at h
  | cons a rest ih =>
    by_cases ha : a.id = pid
    · simp [replaceFirstById, ha, get_podcast_by_id, List.find?, hq]
    · have hb : (a.id == pid) = false := by simp [ha]
      simp only [get_podcast_by_id, List.find?, hb] at h
      simp only [replaceFirstById, hb, if_neg, Bool.false_eq_true,
        get_podcast_by_id, List.find?]
      exact ih h

theorem mem_replaceFirstById (db : Store) (pid : Nat) (q r : Podcast)
    (hr : r ∈ db) (hne : r.id ≠ pid) : r ∈ replaceFirstById db pid q := by
  induction db with
  | nil => simp at hr
  | cons a rest ih =>
    rcases List.mem_cons.mp hr with he | hm
    · subst he
      have hb : (r.id == pid) = false := by simp [hne]
      simp [replaceFirstById, hb]
    · by_cases ha : a.id = pid
      · have hb : (a.id == pid) = true := by simp [ha]
        simp only [replaceFirstById, hb, if_pos]
        exact List.mem_cons_of_mem _ hm
      · have hb : (a.id == pid) = false := by simp [ha]
        simp only [replaceFirstById, hb, Bool.false_eq_true, if_neg]
        exact List.mem_cons_of_mem _ (ih hm)

theorem update_podcast_status_found (db : Store) (pid : Nat) (st : String)
    (kws : List Kwarg) (p : Podcast) (h : get_podcast_by_id db pid = some p) :
    update_podcast_status db pid st kws =
      (some (applyKwargs { p with status := st } kws),
       replaceFirstById db pid (applyKwargs { p with status := st } kws)) := by
  simp [update_podcast_status, h]

theorem update_podcast_status_missing (db : Store) (pid : Nat) (st : String)
    (kws : List Kwarg) (h : get_podcast_by_id db pid = none) :
    update_podcast_status db pid st kws = (none, db) := by
  simp [update_podcast_status, h]

theorem trunc500_length_le (s : String) : (trunc500 s).length ≤ 500 := by
  show (s.data.take 500).length ≤ 500
  rw [List.length_take]
  exact min_le_left _ _

theorem trunc500_ne_empty (s : String) (h : s ≠ "") : trunc500 s ≠ "" := by
  intro he
  apply h
  have hd : s.data.take 500 = [] := congrArg String.data he
  cases hs : s.data with
  | nil => cases s with | mk d => cases hs; rfl
  | cons a l => rw [hs] at hd; simp at hd

/-! ### Claim theorems -/

/-- Claim C10: `update_podcast_status(db, id, status, **kwargs)` modifies
only the `status` field and the keyword-named fields that exist as
attributes of the job record — a keyword naming a non-existent attribute is
silently ignored, every field not named is left unchanged, and rows with a
different id are kept — and when the id matches no job it returns `None`
and leaves the entire table unchanged. -/
theorem claim_C10_update_frame (db : Store) (pid : Nat) (st : String)
    (kws : List Kwarg) :
    (get_podcast_by_id db pid = none →
      update_podcast_status db pid st kws = (none, db)) ∧
    (∀ p, get_podcast_by_id db pid = some p →
      ∃ q, (update_podcast_status db pid st kws).1 = some q ∧
        ("status" ∉ kws.map Kwarg.name → q.status = st) ∧
        ("id" ∉ kws.map Kwarg.name → q.id = p.id) ∧
        ("url" ∉ kws.map Kwarg.name → q.url = p.url) ∧
        ("title" ∉ kws.map Kwarg.name → q.title = p.title) ∧
        ("audio_filename" ∉ kws.map Kwarg.name →
          q.audio_filename = p.audio_filename) ∧
        ("audio_url" ∉ kws.map Kwarg.name → q.audio_url = p.audio_url) ∧
        ("created_at" ∉ kws.map Kwarg.name → q.created_at = p.created_at) ∧
        ("started_at" ∉ kws.map Kwarg.name → q.started_at = p.started_at) ∧
        ("completed_at" ∉ kws.map Kwarg.name → q.completed_at = p.completed_at) ∧
        ("duration" ∉ kws.map Kwarg.name → q.duration = p.duration) ∧
        ("error_message" ∉ kws.map Kwarg.name →
          q.error_message = p.error_message) ∧
        ("retry_count" ∉ kws.map Kwarg.name → q.retry_count = p.retry_count) ∧
        (∀ r ∈ db, r.id ≠ pid → r ∈ (update_podcast_status db pid st kws).2)) ∧
    (∀ p s kws1 kws2, applyKwargs p (kws1 ++ Kwarg.unknownKey s :: kws2) =
      applyKwargs p (kws1 ++ kws2)) := by
  refine ⟨fun h => update_podcast_status_missing db pid st kws h, ?_,
    fun p s k1 k2 => applyKwargs_skip_unknown p s k1 k2⟩
  intro p hp
  obtain ⟨f1, f2, f3, f4, f5, f6, f7, f8, f9, f10, f11, f12⟩ :=
    applyKwargs_frame kws { p with status := st }
  rw [update_podcast_status_found db pid st kws p hp]
  refine ⟨applyKwargs { p with status := st } kws, rfl,
    f6, f1, f2, f3, f4, f5, f7, f8, f9, f10, f11, f12, ?_⟩
  intro r hr hne
  exact mem_replaceFirstById db pid _ r hr hne

/-- Witness for C10: at the concrete table `dbWitness`, an unknown id
leaves the table unchanged, and an update of job 3 through a keyword
naming no attribute leaves `retry_count` unchanged. -/
theorem claim_C10_witness :
    update_podcast_status dbWitness 99 "x" [] = (none, dbWitness) ∧
    ∃ q, (update_podcast_status dbWitness 3 "processing"
        [Kwarg.unknownKey "bogus"]).1 = some q ∧
      q.retry_count = wpod.retry_count := by
  constructor
  · exact (claim_C10_update_frame dbWitness 99 "x" []).1 rfl
  · obtain ⟨q, hq, _, _, _, _, _, _, _, _, _, _, _, hrc, _⟩ :=
      (claim_C10_update_frame dbWitness 3 "processing"
        [Kwarg.unknownKey "bogus"]).2.1 wpod rfl
    exact ⟨q, hq, hrc (by simp [Kwarg.name])⟩

/-- Claim C2 counterexample: the claim says an illegal transition is
rejected with an `InvalidTransition` error and the record left unchanged.
At the concrete table `dbCompleted1`, job 1 is `completed` — not
`processing` — yet transitioning it to `failed` succeeds: the call returns
the updated row and the stored record's status changes from `completed` to
`failed`.  The store silently applies the illegal state change. -/
theorem claim_C2_counterexample :
    (update_podcast_status dbCompleted1 1 "failed" []).1.map Podcast.status
        = some "failed" ∧
    (get_podcast_by_id (update_podcast_status dbCompleted1 1 "failed" []).2 1).map
        Podcast.status = some "failed" ∧
    (get_podcast_by_id dbCompleted1 1).map Podcast.status = some "completed" :=
  ⟨rfl, rfl, rfl⟩

/-- Claim C2 amended: the store performs no transition validation at all.
`update_podcast_status` applies any requested status to an existing job
regardless of the job's current state — no `InvalidTransition` error
exists anywhere in the code — and the worker marks a job `processing`
without checking that it was `queued`.  The only refused case is an
unknown id, which returns `None` with the table unchanged. -/
theorem claim_C2_amended (db : Store) (pid : Nat) (st : String)
    (kws : List Kwarg) :
    (∀ p, get_podcast_by_id db pid = some p →
      ∃ q, (update_podcast_status db pid st kws).1 = some q ∧
        ("status" ∉ kws.map Kwarg.name → q.status = st) ∧
        ("id" ∉ kws.map Kwarg.name →
          get_podcast_by_id (update_podcast_status db pid st kws).2 pid = some q)) ∧
    (get_podcast_by_id db pid = none →
      update_podcast_status db pid st kws = (none, db)) := by
  constructor
  · intro p hp
    obtain ⟨f1, _, _, _, _, f6, _, _, _, _, _, _⟩ :=
      applyKwargs_frame kws { p with status := st }
    rw [update_podcast_status_found db pid st kws p hp]
    refine ⟨applyKwargs { p with status := st } kws, rfl, f6, ?_⟩
    intro hnid
    have hid : (applyKwargs { p with status := st } kws).id = pid := by
      rw [f1 hnid]
      exact id_of_get_podcast_by_id db pid p hp
    exact get_podcast_by_id_replaceFirstById db pid _ hid p hp
  · exact update_podcast_status_missing db pid st kws

/-- Witness for C2 amended: the completed job 1 of `dbCompleted1` is moved
to `failed` with no rejection, observable in the returned row and the
stored table. -/
theorem claim_C2_witness :
    ∃ q, (update_podcast_status dbCompleted1 1 "failed" []).1 = some q ∧
      q.status = "failed" ∧
      get_podcast_by_id (update_podcast_status dbCompleted1 1 "failed" []).2 1
        = some q := by
  obtain ⟨q, hq, hs, hg⟩ :=
    (claim_C2_amended dbCompleted1 1 "failed" []).1 podCompletedA rfl
  exact ⟨q, hq, hs (by simp), hg (by simp)⟩

/-- Claim C6 counterexample: the claim infers that `error_message` is
always non-empty ("hence non-empty") because it equals the truncated error
text.  But the worker stores `str(e)[:500]` for any raised exception, and
an exception's text can be empty (`str(Exception())` is `""` in Python):
on the queued job of `dbQueued1`, an attempt whose hard step raises an
error with empty text ends `failed` with `error_message` set to the empty
string. -/
theorem claim_C6_counterexample :
    (get_podcast_by_id (process_podcast_job (fun _ => "T") dbQueued1 1 50 51
        (Except.error "")) 1).map Podcast.error_message = some (some "") ∧
    (get_podcast_by_id (process_podcast_job (fun _ => "T") dbQueued1 1 50 51
        (Except.error "")) 1).map Podcast.status = some "failed" ∧
    ("" : String).length = 0 :=
  ⟨rfl, rfl, rfl⟩

/-- Claim C6 amended: when a hard step of an attempt raises an error `e`,
the job transitions to `failed` with `completed_at` set, `error_message`
equal to `e` truncated to at most 500 characters — non-empty whenever the
raised error's text `e` is non-empty — and `retry_count` equal to the
previous value plus one, hence at least 1; the failure is recorded in the
table rather than crashing the worker. -/
theorem claim_C6_failure_path (titleOf : String → String) (db : Store)
    (pid now1 now2 : Nat) (e : String) (p : Podcast)
    (h : get_podcast_by_id db pid = some p) :
    ∃ q, get_podcast_by_id
        (process_podcast_job titleOf db pid now1 now2 (Except.error e)) pid
          = some q ∧
      q.status = "failed" ∧ q.completed_at = some now2 ∧
      q.error_message = some (trunc500 e) ∧
      q.retry_count = p.retry_count + 1 ∧ 1 ≤ q.retry_count ∧
      (trunc500 e).length ≤ 500 ∧ (e ≠ "" → trunc500 e ≠ "") := by
  have hid : p.id = pid := id_of_get_podcast_by_id db pid p h
  have hstep1 := update_podcast_status_found db pid "processing"
    [Kwarg.kwStartedAt (some now1)] p h
  set p1 := applyKwargs { p with status := "processing" }
    [Kwarg.kwStartedAt (some now1)] with hp1
  have hid1 : p1.id = pid := hid
  have h2 : get_podcast_by_id (replaceFirstById db pid p1) pid = some p1 :=
    get_podcast_by_id_replaceFirstById db pid p1 hid1 p h
  have hstep2 := update_podcast_status_found (replaceFirstById db pid p1) pid
    "failed" [Kwarg.kwCompletedAt (some now2),
      Kwarg.kwErrorMessage (some (trunc500 e)),
      Kwarg.kwRetryCount (p1.retry_count + 1)] p1 h2
  set q := applyKwargs { p1 with status := "failed" }
    [Kwarg.kwCompletedAt (some now2), Kwarg.kwErrorMessage (some (trunc500 e)),
     Kwarg.kwRetryCount (p1.retry_count + 1)] with hqdef
  have hidq : q.id = pid := hid
  have hproc : process_podcast_job titleOf db pid now1 now2 (Except.error e) =
      replaceFirstById (replaceFirstById db pid p1) pid q := by
    simp only [process_podcast_job, h, hstep1, h2, hstep2]
  have hfinal :
      get_podcast_by_id (replaceFirstById (replaceFirstById db pid p1) pid q) pid
        = some q :=
    get_podcast_by_id_replaceFirstById (replaceFirstById db pid p1) pid q hidq p1 h2
  refine ⟨q, ?_, rfl, rfl, rfl, rfl,
    Nat.succ_le_succ (Nat.zero_le p.retry_count),
    trunc500_length_le e, trunc500_ne_empty e⟩
  rw [hproc]
  exact hfinal

/-- Witness for C6: a failing attempt on the queued job 3 of `dbWitness`
records `failed` with the truncated message and retry count 1. -/
theorem claim_C6_witness :
    ∃ q, get_podcast_by_id
        (process_podcast_job (fun _ => "T") dbWitness 3 41 42
          (Except.error "boom")) 3 = some q ∧
      q.status = "failed" ∧ q.completed_at = some 42 ∧
      q.error_message = some (trunc500 "boom") ∧
      q.retry_count = wpod.retry_count + 1 ∧ 1 ≤ q.retry_count ∧
      (trunc500 "boom").length ≤ 500 ∧
      ("boom" ≠ "" → trunc500 "boom" ≠ "") :=
  claim_C6_failure_path (fun _ => "T") dbWitness 3 41 42 "boom" wpod rfl

/-- Claim C4 counterexample: the claim says the oldest queued job is
selected and transitioned to `processing` in the same atomic operation, so
that no observer can still see it `queued` afterwards and no two claimers
can obtain the same job.  In the source the selection
(`get_next_queued_job`, a plain `SELECT` with no locking clause) performs
no write at all: on the concrete table `dbQueued1` it returns job 1, yet
the table — which the selection leaves untouched — still shows job 1 with
status `queued` and `started_at` unset.  The transition happens only later,
in `process_podcast_job`, through a separate `update_podcast_status` call;
a second claimer evaluating the selection on this same table therefore also
obtains job 1. -/
theorem claim_C4_counterexample :
    (get_next_queued_job dbQueued1).map Podcast.id = some 1 ∧
    (get_next_queued_job dbQueued1).map Podcast.status = some "queued" ∧
    (get_podcast_by_id dbQueued1 1).map Podcast.status = some "queued" ∧
    (get_podcast_by_id dbQueued1 1).map Podcast.started_at = some none :=
  ⟨rfl, rfl, rfl, rfl⟩

/-- Claim C4 amended: `get_next_queued_job` selects exactly the queued job
with the minimum `created_at` (FIFO: with jobs queued at t1 < t2 the t1 job
is returned) and returns none exactly when no queued job exists — but it is
a pure read: the transition to `processing` with `started_at` set happens
only afterwards, in `process_podcast_job`, via a separate
`update_podcast_status` call, so between selection and update the job is
still observable as `queued` and concurrent claimers can select the same
job. -/
theorem claim_C4_amended (db : Store) :
    (∀ j, get_next_queued_job db = some j →
      j.status = "queued" ∧ j ∈ db ∧
      ∀ k ∈ db, k.status = "queued" → j.created_at ≤ k.created_at) ∧
    (get_next_queued_job db = none → ∀ k ∈ db, k.status ≠ "queued") := by
  have hperm := List.perm_insertionSort olderEq
    (db.filter (fun p => p.status == "queued"))
  have hsorted := List.sorted_insertionSort olderEq
    (db.filter (fun p => p.status == "queued"))
  constructor
  · intro j hj
    cases hs : List.insertionSort olderEq
        (db.filter (fun p => p.status == "queued")) with
    | nil =>
      simp only [get_next_queued_job, hs, List.head?] at hj
      exact Option.noConfusion hj
    | cons a tl =>
      have haj : a = j := by
        simp only [get_next_queued_job, hs, List.head?] at hj
        exact Option.some.inj hj
      subst haj
      rw [hs] at hperm hsorted
      have hmem : a ∈ db.filter (fun p => p.status == "queued") :=
        hperm.subset (List.mem_cons_self a tl)
      obtain ⟨hadb, haq⟩ := List.mem_filter.mp hmem
      refine ⟨by simpa using haq, hadb, ?_⟩
      intro k hk hkq
      have hkf : k ∈ db.filter (fun p => p.status == "queued") :=
        List.mem_filter.mpr ⟨hk, by simp [hkq]⟩
      rcases List.mem_cons.mp (hperm.mem_iff.mpr hkf) with he | hm
      · rw [he]
      · exact List.rel_of_sorted_cons hsorted k hm
  · intro hn k hk hkq
    cases hs : List.insertionSort olderEq
        (db.filter (fun p => p.status == "queued")) with
    | nil =>
      rw [hs] at hperm
      have hkf : k ∈ db.filter (fun p => p.status == "queued") :=
        List.mem_filter.mpr ⟨hk, by simp [hkq]⟩
      rw [← hperm.mem_iff] at hkf
      simp at hkf
    | cons a tl =>
      simp only [get_next_queued_job, hs, List.head?] at hn
      exact Option.noConfusion hn

/-- Witness for C4 amended: on `dbWitness` the selected job `wpod` is
queued, belongs to the table, and has minimal `created_at` among queued
jobs. -/
theorem claim_C4_witness :
    wpod.status = "queued" ∧ wpod ∈ dbWitness ∧
    ∀ k ∈ dbWitness, k.status = "queued" → wpod.created_at ≤ k.created_at :=
  (claim_C4_amended dbWitness).1 wpod rfl

/-- Claim C9: `get_all_podcasts db limit` (the `listRecent` of the spec,
called by the library endpoint with limit 100) returns at most `limit`
jobs, sorted newest first by `created_at` descending, all drawn from the
table; it is a pure read of the current table — recomputed on each call
and performing no writes, as its type shows. -/
theorem claim_C9_list_recent (db : Store) (limit : Nat) :
    (get_all_podcasts db limit).length ≤ limit ∧
    (get_all_podcasts db limit).Pairwise
      (fun p q => q.created_at ≤ p.created_at) ∧
    (∀ p ∈ get_all_podcasts db limit, p ∈ db) ∧
    get_podcast_library db = get_all_podcasts db 100 := by
  refine ⟨?_, ?_, ?_, rfl⟩
  · show ((List.insertionSort newerEq db).take limit).length ≤ limit
    rw [List.length_take]
    exact min_le_left _ _
  · have hs : List.Sorted newerEq (List.insertionSort newerEq db) :=
      List.sorted_insertionSort newerEq db
    exact hs.sublist (List.take_sublist _ _)
  · intro p hp
    have h1 : p ∈ List.insertionSort newerEq db :=
      (List.take_sublist _ _).subset hp
    exact (List.perm_insertionSort newerEq db).subset h1

/-- Witness for C9: instantiation on the concrete table `dbWitness` with
limit 5. -/
theorem claim_C9_witness :
    (get_all_podcasts dbWitness 5).length ≤ 5 ∧
    (get_all_podcasts dbWitness 5).Pairwise
      (fun p q => q.created_at ≤ p.created_at) ∧
    (∀ p ∈ get_all_podcasts dbWitness 5, p ∈ dbWitness) ∧
    get_podcast_library dbWitness = get_all_podcasts dbWitness 100 :=
  claim_C9_list_recent dbWitness 5

/-- Claim C5: the deduplication gate's decision is a pure function of the
current job for the source key (it returns a result and touches no table —
its type is `Store → String → CheckResult`): no existing job yields
CreateNew (`existsFlag = false`); a `completed` job yields Reuse carrying
its id, the `completed` status and the artifact reference; a `queued` or
`processing` job yields Reuse carrying its id and current status with no
artifact reference; a `failed` job yields CreateNew with the record
attached. -/
theorem claim_C5_dedup_gate (db : Store) (u : String) :
    (get_podcast_by_url db u = none →
      check_existing_podcast db u = ⟨false, none, none⟩) ∧
    (∀ p, get_podcast_by_url db u = some p →
      (p.status = "completed" →
        check_existing_podcast db u =
          ⟨true, some p, some ⟨p.id, "completed", some (audio_ref p.id)⟩⟩) ∧
      (p.status = "queued" ∨ p.status = "processing" →
        check_existing_podcast db u =
          ⟨true, some p, some ⟨p.id, p.status, none⟩⟩) ∧
      (p.status = "failed" →
        check_existing_podcast db u = ⟨false, some p, none⟩)) := by
  constructor
  · intro h
    simp [check_existing_podcast, h]
  · intro p hp
    refine ⟨?_, ?_, ?_⟩
    · intro hc
      simp [check_existing_podcast, hp, hc]
    · intro hq
      rcases hq with hq | hq <;> simp [check_existing_podcast, hp, hq]
    · intro hf
      simp [check_existing_podcast, hp, hf]

/-- Witness for C5: on `dbCompleted1` the gate answers Reuse with the
completed job's id and artifact reference. -/
theorem claim_C5_witness :
    check_existing_podcast dbCompleted1 "https://example.org/a" =
      ⟨true, some podCompletedA,
       some ⟨podCompletedA.id, "completed", some (audio_ref podCompletedA.id)⟩⟩ :=
  ((claim_C5_dedup_gate dbCompleted1 "https://example.org/a").2
    podCompletedA rfl).1 rfl

/-- Claim C7: `get_job_status` returns 404 NotFound for an unknown job id;
for a known id it returns the job's state, timestamps and error message,
and includes the artifact access reference exactly when the job's state is
`completed`. -/
theorem claim_C7_get_status (db : Store) (jid : Nat) :
    (get_podcast_by_id db jid = none →
      get_job_status db jid = ApiResult.httpError 404 "Job not found") ∧
    (∀ p, get_podcast_by_id db jid = some p →
      ∃ r, get_job_status db jid = ApiResult.ok r ∧
        r.status = p.status ∧ r.error_message = p.error_message ∧
        r.created_at = some p.created_at ∧ r.started_at = p.started_at ∧
        r.completed_at = p.completed_at ∧
        (r.audio_url.isSome ↔ p.status = "completed")) := by
  constructor
  · intro h
    simp [get_job_status, h]
  · intro p hp
    by_cases hc : p.status = "completed"
    · refine ⟨{ status := p.status, audio_url := some (audio_ref jid),
                error_message := p.error_message, created_at := some p.created_at,
                started_at := p.started_at, completed_at := p.completed_at },
        by simp [get_job_status, hp, hc], rfl, rfl, rfl, rfl, rfl, by simp [hc]⟩
    · refine ⟨{ status := p.status, audio_url := none,
                error_message := p.error_message, created_at := some p.created_at,
                started_at := p.started_at, completed_at := p.completed_at },
        by simp [get_job_status, hp, hc], rfl, rfl, rfl, rfl, rfl, by simp [hc]⟩

/-- Witness for C7: the completed job 1 of `dbCompleted1` is reported with
its fields and an artifact reference present. -/
theorem claim_C7_witness :
    ∃ r, get_job_status dbCompleted1 1 = ApiResult.ok r ∧
      r.status = podCompletedA.status ∧
      r.error_message = podCompletedA.error_message ∧
      r.created_at = some podCompletedA.created_at ∧
      r.started_at = podCompletedA.started_at ∧
      r.completed_at = podCompletedA.completed_at ∧
      (r.audio_url.isSome ↔ podCompletedA.status = "completed") :=
  (claim_C7_get_status dbCompleted1 1).2 podCompletedA rfl

/-- Claim C8 counterexample: on the concrete table `dbTwoFailedSameUrl`,
holding two records for the url `u` — id 1 created at 10 inserted first
and id 2 created at 20 inserted second — `get_podcast_by_url` returns the
record created at 10, although a matching record with the strictly greater
`created_at` 20 exists: the claim that the most recently created matching
job is returned is false (the query has no `order_by`; it yields the first
match in table order). -/
theorem claim_C8_counterexample :
    (get_podcast_by_url dbTwoFailedSameUrl "u").map Podcast.id = some 1 ∧
    (get_podcast_by_url dbTwoFailedSameUrl "u").map Podcast.created_at
      = some 10 ∧
    podFailedU2 ∈ dbTwoFailedSameUrl ∧ podFailedU2.url = "u" ∧
    podFailedU2.created_at = 20 :=
  ⟨rfl, rfl, by simp [dbTwoFailedSameUrl], rfl, rfl⟩

/-- Claim C8 amended: `get_podcast_by_url` returns NotFound (`none`)
exactly when no record matches the source key, and otherwise returns the
first matching record in table order — not the one with the greatest
`created_at`.  (Under the table's unique-url constraint at most one record
can match, so the "several failed attempts" premise is unreachable through
the code's own insert path.) -/
theorem claim_C8_get_by_url (db : Store) (u : String) :
    (get_podcast_by_url db u = none ↔ ∀ p ∈ db, p.url ≠ u) ∧
    (∀ p, get_podcast_by_url db u = some p →
      p.url = u ∧ ∃ l1 l2, db = l1 ++ p :: l2 ∧ ∀ x ∈ l1, x.url ≠ u) := by
  constructor
  · rw [get_podcast_by_url, List.find?_eq_none]
    constructor
    · intro h p hp
      have := h p hp
      simpa using this
    · intro h p hp
      simpa using h p hp
  · induction db with
    | nil =>
      intro p hp
      simp [get_podcast_by_url] at hp
    | cons a rest ih =>
      intro p hp
      by_cases ha : a.url = u
      · have hfa : get_podcast_by_url (a :: rest) u = some a := by
          simp [get_podcast_by_url, List.find?, ha]
        rw [hfa] at hp
        obtain rfl := Option.some.inj hp
        exact ⟨ha, [], rest, rfl, by simp⟩
      · have hb : (a.url == u) = false := by simp [ha]
        have hp' : get_podcast_by_url rest u = some p := by
          simpa [get_podcast_by_url, List.find?, hb] using hp
        obtain ⟨hu, l1, l2, hdb, hl1⟩ := ih p hp'
        refine ⟨hu, a :: l1, l2, by rw [List.cons_append, hdb], ?_⟩
        intro x hx
        rcases List.mem_cons.mp hx with he | hm
        · rw [he]; exact ha
        · exact hl1 x hm

/-- Witness for C8 amended: on `dbTwoFailedSameUrl` the returned record is
`podFailedU1`, the first match in table order, with no earlier matching
row. -/
theorem claim_C8_witness :
    podFailedU1.url = "u" ∧
    ∃ l1 l2, dbTwoFailedSameUrl = l1 ++ podFailedU1 :: l2 ∧
      ∀ x ∈ l1, x.url ≠ "u" :=
  (claim_C8_get_by_url dbTwoFailedSameUrl "u").2 podFailedU1 rfl

/-- Claim C1, evaluated at the failing input: the table `dbFailedB` holds a
single job for `https://example.org/b`, in state `failed`.  The claim (and
the deduplication module's own documentation, "Allows retry of failed
jobs") says a new submission of this key succeeds and creates a fresh
`queued` job next to the failed record.  Instead: the gate answers
CreateNew (`existsFlag = false`), the insert violates the `unique=True`
constraint on the url column (`models.py` line 27) and raises, and the
endpoint returns HTTP 500 with the conflict text, leaving the table
unchanged — no retry is ever possible for a failed key.  The code
contradicts its own documented dedup policy: a code bug. -/
theorem claim_C1_retry_blocked :
    (check_existing_podcast dbFailedB "https://example.org/b").existsFlag
      = false ∧
    create_podcast_job dbFailedB "https://example.org/b" 2 20
      = Except.error conflict_message ∧
    generate_podcast_async dbFailedB "https://example.org/b" 2 20
      = (ApiResult.httpError 500 conflict_message, dbFailedB) :=
  ⟨rfl, rfl, rfl⟩

/-- Claim C3 counterexample: a submission on which the store's insert
raises the uniqueness conflict — the url of `dbFailedC`, for which the
dedup check reports no active job.  The claim says the service recovers by
re-reading the job by source key (id 7) and returning its view; instead
the generic exception handler propagates an HTTP 500 error carrying the
conflict text, and the caller never receives the existing job's id. -/
theorem claim_C3_counterexample :
    generate_podcast_async dbFailedC "https://example.org/c" 8 30
      = (ApiResult.httpError 500 conflict_message, dbFailedC) ∧
    get_podcast_by_url dbFailedC "https://example.org/c" = some podFailedC :=
  ⟨rfl, rfl⟩

/-- Claim C3 amended: when the insert raises the uniqueness conflict after
the dedup gate answered CreateNew — which, given the unique url column,
happens exactly when the key's current job is `failed` — the submission
handler does not fall back to `get_podcast_by_url`: its generic
`except Exception` converts the error into an HTTP 500 response carrying
the error text, with the table left unchanged. -/
theorem claim_C3_amended (db : Store) (u : String) (newId now : Nat)
    (p : Podcast) (hp : get_podcast_by_url db u = some p)
    (hf : p.status = "failed") :
    check_existing_podcast db u = ⟨false, some p, none⟩ ∧
    create_podcast_job db u newId now = Except.error conflict_message ∧
    generate_podcast_async db u newId now
      = (ApiResult.httpError 500 conflict_message, db) := by
  have hchk : check_existing_podcast db u = ⟨false, some p, none⟩ := by
    simp [check_existing_podcast, hp, hf]
  have hany : db.any (fun q => q.url == u) = true := by
    refine List.any_eq_true.mpr ⟨p, mem_of_get_podcast_by_url db u p hp, ?_⟩
    simp [url_of_get_podcast_by_url db u p hp]
  have hconf : create_podcast_job db u newId now
      = Except.error conflict_message := by
    simp [create_podcast_job, hany]
  refine ⟨hchk, hconf, ?_⟩
  simp [generate_podcast_async, hchk, hconf]

/-- Witness for C3 amended: instantiation on `dbFailedC` and its failed
job. -/
theorem claim_C3_witness :
    check_existing_podcast dbFailedC "https://example.org/c"
      = ⟨false, some podFailedC, none⟩ ∧
    create_podcast_job dbFailedC "https://example.org/c" 9 31
      = Except.error conflict_message ∧
    generate_podcast_async dbFailedC "https://example.org/c" 9 31
      = (ApiResult.httpError 500 conflict_message, dbFailedC) :=
  claim_C3_amended dbFailedC "https://example.org/c" 9 31 podFailedC rfl rfl

end Podcastfy
